import Mathlib

/-!
Shallow embedding of the command-recognition pipeline of the `course-api`
repository (`app/services/command_service.py`, `app/api/router.py`), together
with a model, taken from the specification, of the two-stage router/extractor
orchestrator that the specification describes but that is not present under
the provided sources.

Python strings are modelled as Lean `String` (lists of characters); Python
dictionaries of known shape are modelled as structures or association lists;
confidences (Python floats) are modelled as rationals; fallible operations
return `Option`/`Except`.
-/

namespace CmdRec

/-! ### Basic character and string helpers (Python string operations) -/

/-- Opening curly brace character. -/
def obr : Char := Char.ofNat 123

/-- Closing curly brace character. -/
def cbr : Char := Char.ofNat 125

/-- Characters stripped by Python `str.strip()` with no argument. -/
def pySpace (c : Char) : Bool :=
  c = ' ' || c = '\t' || c = '\n' || c = '\r' || c = Char.ofNat 11 || c = Char.ofNat 12

/-- Model of Python `str.strip()`: remove leading and trailing whitespace. -/
def pyStrip (s : String) : String :=
  String.mk (((s.data.dropWhile pySpace).reverse.dropWhile pySpace).reverse)

/-- Substring test on character lists (model of Python `pat in s`). -/
def listContains (pat : List Char) : List Char → Bool
  | [] => pat.isEmpty
  | c :: t => pat.isPrefixOf (c :: t) || listContains pat t

/-- Model of the Python substring test `pat in s`. -/
def containsS (s pat : String) : Bool :=
  listContains pat.data s.data

/-- Fuel-driven worker for `replaceAll` (leftmost, non-overlapping). -/
def replaceFuel (pat rep : List Char) : Nat → List Char → List Char
  | 0, l => l
  | _ + 1, [] => []
  | n + 1, c :: t =>
    if !pat.isEmpty && pat.isPrefixOf (c :: t) then
      rep ++ replaceFuel pat rep n ((c :: t).drop pat.length)
    else
      c :: replaceFuel pat rep n t

/-- Model of Python `s.replace(pat, rep)`: replace every non-overlapping
occurrence of `pat`, scanning left to right. -/
def replaceAll (s pat rep : String) : String :=
  String.mk (replaceFuel pat.data rep.data s.data.length s.data)

/-- Model of `", ".join(l)`. -/
def joinComma (l : List String) : String :=
  String.intercalate ", " l

/-- Model of the Python idiom `", ".join(l) or dflt` used for each vocabulary
in `_prepare_prompt` (source lines 180-190): the joined string if it is
truthy (non-empty), else the hard-coded default. -/
def vocabOr (l : List String) (dflt : String) : String :=
  let j := joinComma l
  if j = "" then dflt else j

/-! ### Model of Python `str.format` (named fields, brace escapes)

The model covers replacement fields of the form `\x7bname\x7d` together with
the escapes `\x7b\x7b` and `\x7d\x7d`, mirroring CPython's scanner: an
unknown field name raises `KeyError(name)` (the name is resolved before any
conversion or format spec is applied), while auto-numbered fields (empty or
all-digit names), fields carrying a conversion/attribute/spec suffix, a brace
inside a field name, and stray single braces are modelled as the non-`KeyError`
failure class (`IndexError`/`ValueError`/`AttributeError` in Python), which the
source code treats uniformly: they are not caught by `except KeyError`.
The repository's templates use bare placeholder names only. -/

/-- Failure classes of `str.format` distinguished by the source code. -/
inductive FmtErr where
  /-- `KeyError(name)`: the field name is not among the keyword arguments. -/
  | keyErr (name : String)
  /-- Any other formatting failure (`ValueError`, `IndexError`, ...). -/
  | otherErr
  deriving DecidableEq, Repr

/-- Characters that end the key part of a field name in `str.format`
(conversion `!`, format spec `:`, attribute access `.`, indexing `[`). -/
def fieldStop (c : Char) : Bool :=
  c = '!' || c = ':' || c = '.' || c = Char.ofNat 91

/-- Resolve one replacement field with accumulated name `acc` against the
keyword arguments `vals`. -/
def resolveField (vals : String → Option String) (acc : List Char) :
    Except FmtErr (List Char) :=
  let base := acc.takeWhile (fun c => !(fieldStop c))
  if base.all Char.isDigit then
    -- empty or all-digit field name: positional auto-numbering, IndexError
    .error .otherErr
  else
    match vals (String.mk base) with
    | none => .error (.keyErr (String.mk base))
    | some v =>
      if base.length = acc.length then .ok v.data else .error .otherErr

/-- Scanner state for the `str.format` model. -/
inductive FmtSt where
  | norm
  | afterOpen
  | inField (acc : List Char)
  | afterClose
  deriving Repr

/-- Character-by-character model of CPython's format-string scanner. -/
def fmtRun (vals : String → Option String) : List Char → FmtSt → Except FmtErr (List Char)
  | [], .norm => .ok []
  | [], _ => .error .otherErr
  | c :: t, .norm =>
    if c = obr then fmtRun vals t .afterOpen
    else if c = cbr then fmtRun vals t .afterClose
    else (c :: ·) <$> fmtRun vals t .norm
  | c :: t, .afterOpen =>
    if c = obr then (obr :: ·) <$> fmtRun vals t .norm
    else if c = cbr then .error .otherErr
    else fmtRun vals t (.inField [c])
  | c :: t, .inField acc =>
    if c = cbr then
      match resolveField vals acc with
      | .ok v => (v ++ ·) <$> fmtRun vals t .norm
      | .error e => .error e
    else if c = obr then .error .otherErr
    else fmtRun vals t (.inField (acc ++ [c]))
  | c :: t, .afterClose =>
    if c = cbr then (cbr :: ·) <$> fmtRun vals t .norm
    else .error .otherErr

/-- Model of Python `s.format(**vals)`. -/
def pyFormatS (vals : String → Option String) (s : String) : Except FmtErr String :=
  (fmtRun vals s.data .norm).map String.mk

/-! ### Game state, placeholder keys and substitution values
(`_prepare_prompt`, source lines 111-219) -/

/-- Game-state snapshot passed to the recognizer: the seven vocabularies.
Absent dictionary keys behave as empty lists (`game_state.get(k, [])`). -/
structure GameState where
  commands : List String := []
  objects : List String := []
  interactions : List String := []
  weapons : List String := []
  targets : List String := []
  npcs : List String := []
  dialog_options : List String := []
  deriving Repr

/-- The eight placeholder names, in the order of `actual_placeholders`
(source lines 150-159); the same names are the keyword arguments of the
`format` calls at lines 74-83 and 194-203. -/
def keys8 : List String :=
  ["commands", "objects", "interactions", "user_command",
   "weapons", "targets", "npcs", "dialog_options"]

/-- Dummy keyword arguments of the dry-run `format` at load time
(source lines 73-83): every placeholder is bound to `"test"`. -/
def testVals : String → Option String := fun k =>
  if keys8.contains k then some "test" else none

/-- Keyword arguments of the real `format` call (source lines 194-203),
with the per-vocabulary defaults of lines 180-190. -/
def formatVals (transcription : String) (gs : GameState) : String → Option String :=
  fun k =>
    if k = "user_command" then some transcription
    else if k = "commands" then some (vocabOr gs.commands "move, interact, attack, talk")
    else if k = "objects" then some (vocabOr gs.objects "door, key, book, chest")
    else if k = "interactions" then some (vocabOr gs.interactions "open, close, take, use, examine")
    else if k = "weapons" then some (vocabOr gs.weapons "sword, bow, axe")
    else if k = "targets" then some (vocabOr gs.targets "enemy, monster, target")
    else if k = "npcs" then some (vocabOr gs.npcs "merchant, guard, villager")
    else if k = "dialog_options" then some (vocabOr gs.dialog_options "greet, ask, buy, sell")
    else none

/-! ### The answer-block escaping pass (source lines 133-168) -/

/-- Split a character list at every newline (model of Python
`s.split("\n")`: `n` separators yield `n + 1` parts, empty parts kept). -/
def splitNl : List Char → List (List Char)
  | [] => [[]]
  | c :: t =>
    match splitNl t with
    | [] => [[]]
    | h :: rest => if c = '\n' then [] :: h :: rest else (c :: h) :: rest

/-- Model of Python `s.split("\n")`. -/
def pySplitLines (s : String) : List String :=
  (splitNl s.data).map String.mk

/-- Does the line contain the opening answer tag? -/
def hasOpenTag (l : String) : Bool := containsS l "<answer>"

/-- Does the line contain the closing answer tag? -/
def hasCloseTag (l : String) : Bool := containsS l "</answer>"

/-- Does the line contain a curly brace? -/
def hasBrace (l : String) : Bool := containsS l "\x7b" || containsS l "\x7d"

/-- Escape one line inside an answer block: double every brace, then restore
the eight legitimate placeholders (source lines 148-164). -/
def escapeLine (l : String) : String :=
  keys8.foldl
    (fun acc p => replaceAll acc ("\x7b\x7b" ++ p ++ "\x7d\x7d") ("\x7b" ++ p ++ "\x7d"))
    (replaceAll (replaceAll l "\x7b" "\x7b\x7b") "\x7d" "\x7d\x7d")

/-- The per-line loop of the escaping pass, threading `in_answer_block`
(source lines 137-166). -/
def processPromptLines (inAns : Bool) : List String → List String
  | [] => []
  | l :: ls =>
    if hasOpenTag l then l :: processPromptLines true ls
    else if hasCloseTag l then l :: processPromptLines false ls
    else if inAns && hasBrace l then escapeLine l :: processPromptLines inAns ls
    else l :: processPromptLines inAns ls

/-- Split into lines, run the escaping pass, and re-join
(source lines 135-168). -/
def processAnswerEscape (template : String) : String :=
  String.intercalate "\n" (processPromptLines false (pySplitLines template))

/-- The minimal fallback prompt returned when substitution fails
(source lines 214 and 219). -/
def fallbackPrompt (transcription : String) : String :=
  "Analyze this command: \"" ++ transcription ++ "\". Respond with JSON in <answer> tags."

/-- Compile one template: escape answer blocks, then `format` with the game
state values; on any formatting failure return the fallback prompt
(source lines 133-219, the `try`/`except` around `format`). -/
def compileTemplate (template transcription : String) (gs : GameState) : String :=
  match pyFormatS (formatVals transcription gs) (processAnswerEscape template) with
  | .ok s => s
  | .error _ => fallbackPrompt transcription

/-! ### Loading the prompt set (`_load_prompts`, source lines 30-109) -/

/-- Fuel-driven worker for `removeMatching`, modelling
`re.sub(r"\x7b([^\x7b\x7d]*NAME[^\x7b\x7d]*)\x7d", "", template)`:
at an opening brace whose brace-free content, closed by a closing brace,
contains `name`, drop the whole region and continue after it; otherwise
advance one character (leftmost, non-overlapping matching). -/
def cleanFuel (name : List Char) : Nat → List Char → List Char
  | 0, l => l
  | _ + 1, [] => []
  | n + 1, c :: t =>
    if c = obr then
      let inner := t.takeWhile (fun d => !(d = obr || d = cbr))
      match t.drop inner.length with
      | d :: t2 =>
        if d = cbr && listContains name inner then cleanFuel name n t2
        else c :: cleanFuel name n t
      | [] => c :: cleanFuel name n t
    else c :: cleanFuel name n t

/-- Model of the placeholder-removal `re.sub` at source lines 93-100. -/
def removeMatching (name template : String) : String :=
  String.mk (cleanFuel name.data template.data.length template.data)

/-- One prompt file as seen by `_load_prompts`: either it fails to read/parse
(any exception before the template is extracted), or it yields the string
`prompt_data.get("prompt_template", "")`. -/
inductive FileEntry where
  /-- Unreadable file or invalid JSON: the whole file is skipped. -/
  | bad
  /-- Parsed file with the given `prompt_template` string. -/
  | good (template : String)
  deriving Repr, DecidableEq

/-- The service's mutable template state: the active prompt set
(`self.prompts`) and the names recorded in `self.prompt_data`
(only the names matter to the control flow modelled here). -/
structure Service where
  prompts : List (String × String) := []
  promptData : List String := []
  deriving Repr

/-- Process one prompt file (the loop body of `_load_prompts`,
source lines 43-109). Association lists are updated by prepending, so
`List.lookup` sees the latest write, matching dictionary assignment. -/
def loadStep (svc : Service) (file : String × FileEntry) : Service :=
  match file.2 with
  | .bad => svc
  | .good t =>
    let svc1 : Service := { svc with promptData := file.1 :: svc.promptData }
    if containsS t "\x7buser_command\x7d" then
      match pyFormatS testVals t with
      | .ok _ => { svc1 with prompts := (file.1, t) :: svc1.prompts }
      | .error (.keyErr e) => { svc1 with prompts := (file.1, removeMatching e t) :: svc1.prompts }
      | .error .otherErr => svc1
    else svc1

/-- Model of `_load_prompts`: fold the per-file step over the directory
listing (pairs of prompt name and file outcome). -/
def loadPrompts (files : List (String × FileEntry)) : Service :=
  files.foldl loadStep {}

/-- Model of `_prepare_prompt` in the context of a service state
(source lines 111-219): unknown prompt names fall back to `base_commands`;
the two dictionary lookups at lines 130-131 can raise `KeyError`, modelled
as `none` (callers catch it); otherwise the template is compiled. -/
def preparePromptS (svc : Service) (name transcription : String) (gs : GameState) :
    Option String :=
  let name2 := if (svc.prompts.lookup name).isSome then name else "base_commands"
  match svc.prompts.lookup name2 with
  | none => none
  | some tmpl =>
    if svc.promptData.contains name2 then
      some (compileTemplate tmpl transcription gs)
    else none

/-! ### JSON values, answer extraction and the recognition loop
(`recognize_command`, source lines 221-330) -/

/-- JSON values (the decoded `command_data`). -/
inductive Json where
  | null
  | bool (b : Bool)
  | num (q : ℚ)
  | str (s : String)
  | arr (xs : List Json)
  | obj (fields : List (String × Json))

/-- Python truthiness of a JSON value (used by `if best_match and ...`). -/
def jsonTruthy : Json → Bool
  | .null => false
  | .bool b => b
  | .num q => q ≠ 0
  | .str s => s ≠ ""
  | .arr xs => !xs.isEmpty
  | .obj fs => !fs.isEmpty

/-- Model of `command_data.get("confidence", 0.0)` followed by the numeric
comparison at source lines 298-301: a missing key defaults to `0.0`; booleans
compare as `0`/`1`; a non-numeric value raises `TypeError` at the comparison
(and `command_data.get` raises `AttributeError` on a non-object), both caught
by the surrounding `except` so that no candidate is recorded — modelled as
`none`. -/
def confOf : Json → Option ℚ
  | .obj fs =>
    match fs.lookup "confidence" with
    | none => some 0
    | some (.num q) => some q
    | some (.bool b) => some (if b then 1 else 0)
    | some _ => none
  | _ => none

/-- Drop everything up to and including the first occurrence of `pat`;
`none` if `pat` does not occur. -/
def dropAfterFirst (pat : List Char) : List Char → Option (List Char)
  | [] => if pat.isEmpty then some [] else none
  | c :: t =>
    if pat.isPrefixOf (c :: t) then some ((c :: t).drop pat.length)
    else dropAfterFirst pat t

/-- Take everything strictly before the first occurrence of `pat`;
`none` if `pat` does not occur. -/
def takeUntilSub (pat : List Char) : List Char → Option (List Char)
  | [] => if pat.isEmpty then some [] else none
  | c :: t =>
    if pat.isPrefixOf (c :: t) then some []
    else (c :: ·) <$> takeUntilSub pat t

/-- Model of `re.search(r"<answer>(.*?)</answer>", text, re.DOTALL)`
(source lines 291-293): the content after the first `<answer>` up to the
next `</answer>`. -/
def extractAnswer (s : String) : Option String :=
  (dropAfterFirst "<answer>".data s.data).bind fun rest =>
    (takeUntilSub "</answer>".data rest).map String.mk

/-- Outcome of one backend call (`session.post` at source lines 275-283):
either a transport exception or an HTTP response with status and body
(`result.get("response", "")`). -/
inductive BackendResp where
  | exc
  | resp (status : Nat) (body : String)

/-- The decoded candidate of one backend call: require status 200, find the
answer block, and JSON-decode it (source lines 284-308). `jsonParse` models
the external `json.loads`. -/
def parsedAnswer (jsonParse : String → Option Json) (r : BackendResp) : Option Json :=
  match r with
  | .exc => none
  | .resp status body =>
    if status = 200 then (extractAnswer body).bind jsonParse else none

/-- The fixed list of prompt types tried in order (source lines 258-264). -/
def promptTypes : List String :=
  ["movement_commands", "object_interactions", "combat_commands",
   "dialog_commands", "base_commands"]

/-- The dictionary returned by `recognize_command`. -/
structure RecognitionResult where
  recognized : Bool
  command : Option Json
  confidence : ℚ
  error : Option String

/-- The initial response dictionary (source lines 246-251). -/
def initResponse : RecognitionResult :=
  { recognized := false, command := none, confidence := 0, error := none }

/-- Loop body over one prompt type: prepare the prompt (a raised `KeyError`
skips the type with no backend call), record the prompt sent to the backend,
and keep the candidate if its confidence strictly exceeds the current best
(source lines 269-316). The accumulator is `(best_match, highest_confidence,
log of prompts sent)`. -/
def recognizeStep (svc : Service) (jsonParse : String → Option Json)
    (oracle : String → BackendResp) (transcription : String) (gs : GameState)
    (acc : Option Json × ℚ × List String) (ptype : String) :
    Option Json × ℚ × List String :=
  match preparePromptS svc ptype transcription gs with
  | none => acc
  | some prompt =>
    let log := acc.2.2 ++ [prompt]
    match parsedAnswer jsonParse (oracle prompt) with
    | none => (acc.1, acc.2.1, log)
    | some cd =>
      match confOf cd with
      | none => (acc.1, acc.2.1, log)
      | some conf =>
        if acc.2.1 < conf then (some cd, conf, log) else (acc.1, acc.2.1, log)

/-- Model of `recognize_command` (source lines 221-330), instrumented with
the list of prompts actually sent to the backend. `oracle` models the
Ollama endpoint, `jsonParse` the external `json.loads`. -/
def recognizeCommandLog (svc : Service) (jsonParse : String → Option Json)
    (oracle : String → BackendResp) (transcription : String) (gs : GameState) :
    RecognitionResult × List String :=
  if transcription = "" ∨ pyStrip transcription = "" then
    (initResponse, [])
  else
    let r := promptTypes.foldl (recognizeStep svc jsonParse oracle transcription gs)
      (none, 0, [])
    if (r.1.map jsonTruthy).getD false && decide (0 < r.2.1) then
      ({ recognized := true, command := r.1, confidence := r.2.1, error := none }, r.2.2)
    else
      ({ recognized := false, command := none, confidence := 0,
         error := some "No valid command recognized" }, r.2.2)

/-- The near-miss branch condition of the HTTP handler
(`app/api/router.py`, lines 138-142). -/
def nearMissBranch (r : RecognitionResult) : Bool :=
  !r.recognized && r.command.isSome && decide (0 < r.confidence)

/-! ### Token view of well-formed templates

A template whose character sequence is the rendering of a token list —
ordinary characters, the escapes `\x7b\x7b` / `\x7d\x7d`, and bare
replacement fields over the eight placeholder names — formats without error;
this is the structural hypothesis used for the positive half of the
prompt-compiler claims. -/

/-- One token of a placeholder template. -/
inductive Tok where
  | ch (c : Char)
  | escOpen
  | escClose
  | field (name : String)
  deriving Repr, DecidableEq

/-- Characters a token stands for in the template text. -/
def Tok.renderOne : Tok → List Char
  | .ch c => [c]
  | .escOpen => [obr, obr]
  | .escClose => [cbr, cbr]
  | .field n => obr :: n.data ++ [cbr]

/-- Template text of a token list. -/
def renderToks : List Tok → List Char
  | [] => []
  | t :: ts => t.renderOne ++ renderToks ts

/-- Formatted output of a token list under the keyword arguments `vals`. -/
def outToks (vals : String → Option String) : List Tok → List Char
  | [] => []
  | .ch c :: ts => c :: outToks vals ts
  | .escOpen :: ts => obr :: outToks vals ts
  | .escClose :: ts => cbr :: outToks vals ts
  | .field n :: ts => ((vals n).getD "").data ++ outToks vals ts

/-- Well-formedness of one token: ordinary characters are not braces and
field names are among the eight placeholder names. -/
def Tok.wfB : Tok → Bool
  | .ch c => !(c = obr || c = cbr)
  | .escOpen => true
  | .escClose => true
  | .field n => keys8.contains n

/-! ### Model of the two-stage router/extractor orchestrator

Modelled from the spec: the canonical two-stage recognition pipeline of spec
sections 4.3 and 4.5 (router stage, low-confidence gate at 0.3, extraction
stage, min-confidence arbitration with acceptance threshold 0.5, and the
response extractor's verb-to-category normalization) is not present under the
provided sources — `command_service.py` contains only the single-stage
best-of-N scan variant — so the orchestrator and the router-answer
normalization are defined here faithfully to the specification's words. -/

/-- Modelled from the spec: the router stage's decision (spec section 3). -/
structure RouterDecision where
  category : String
  confidence : ℚ
  alternatives : List String := []
  deriving Repr

/-- Modelled from the spec: the extraction stage's structured command
(spec section 3); the payload is category-specific key/value data. -/
structure ExtractedCommand where
  category : String
  confidence : ℚ
  payload : List (String × String) := []
  deriving Repr

/-- Command payload attached to a pipeline result: either the raw router
decision (exposed on gate/extraction failures for near-miss inspection) or
the extracted command together with the router's alternatives. -/
inductive CommandValue where
  | routerRaw (d : RouterDecision)
  | extracted (category : String) (payload : List (String × String))
      (alternatives : List String)
  deriving Repr

/-- Modelled from the spec: the `RecognitionResult` of the two-stage
pipeline (spec section 3). -/
structure SRecognitionResult where
  recognized : Bool
  command : Option CommandValue
  confidence : ℚ
  error : Option String
  deriving Repr

/-- Modelled from the spec: the orchestrator state machine of spec section
4.5, given the outcome of the routing stage and the extraction stage as an
oracle from the resolved category. The second component records whether the
extraction stage was invoked. -/
def orchestrate (route : Option RouterDecision)
    (extract : String → Option ExtractedCommand) : SRecognitionResult × Bool :=
  match route with
  | none =>
    ({ recognized := false, command := none, confidence := 0,
       error := some "Failed to determine command type" }, false)
  | some d =>
    if d.confidence < 3/10 then
      ({ recognized := false, command := some (.routerRaw d),
         confidence := d.confidence,
         error := some "Low confidence in command type" }, false)
    else
      match extract d.category with
      | none =>
        ({ recognized := false, command := some (.routerRaw d),
           confidence := d.confidence,
           error := some ("Failed to process command with " ++ d.category ++ " handler") },
         true)
      | some e =>
        let fc := min d.confidence e.confidence
        ({ recognized := decide (1/2 ≤ fc),
           command := some (.extracted d.category e.payload d.alternatives),
           confidence := fc, error := none }, true)

/-- Modelled from the spec: the fixed verb-to-category lookup table of spec
section 4.3. -/
def verbTable : List (String × String) :=
  [("move", "movement"), ("go", "movement"),
   ("attack", "combat"), ("fight", "combat"),
   ("talk", "dialog"), ("speak", "dialog"),
   ("use", "object_interaction"), ("take", "object_interaction"),
   ("open", "object_interaction")]

/-- Modelled from the spec: map a raw command verb to a category; verbs not
in the table map to the explicit unknown category. -/
def verbToCategory (v : String) : String :=
  (verbTable.lookup v).getD "unknown"

/-- Modelled from the spec: a decoded router answer before normalization;
the canonical shape has the category field set. -/
structure RouterAnswer where
  category : Option String
  command : Option String
  confidence : Option ℚ
  converted : Bool := false
  deriving Repr

/-- Modelled from the spec: the response extractor's normalization pass for
router answers (spec section 4.3): an answer using a raw command verb field
instead of the category field is rewritten in canonical shape via the lookup
table, confidence defaults to 0.7 when absent, and the conversion is
recorded. -/
def normalizeRouterAnswer (a : RouterAnswer) : RouterAnswer :=
  match a.category, a.command with
  | none, some v =>
    { category := some (verbToCategory v), command := some v,
      confidence := some (a.confidence.getD (7/10)), converted := true }
  | _, _ => a

/-! ### Declarative description of answer spans (for the escaping-pass claim) -/

/-- A line carrying either answer tag. -/
def taggedLine (l : String) : Bool := hasOpenTag l || hasCloseTag l

/-- The last tag-carrying line strictly before position `i`. -/
def lastTagBefore (ls : List String) (i : Nat) : Option String :=
  ((ls.take i).filter taggedLine).getLast?

/-- Position `i` lies strictly inside an answer span when the most recent
tag-carrying line before it is an opening line, assuming the scan starts in
state `b` (outside a span for `b = false`). -/
def insideFrom (b : Bool) (ls : List String) (i : Nat) : Bool :=
  match lastTagBefore ls i with
  | some l => hasOpenTag l
  | none => b

/-- Position `i` lies strictly inside an `<answer>`...`</answer>` span. -/
def strictlyInside (ls : List String) (i : Nat) : Bool :=
  insideFrom false ls i

/-- Map a function over a list together with each element's position. -/
def idxMap (f : Nat → String → String) : List String → List String
  | [] => []
  | l :: ls => f 0 l :: idxMap (fun i => f (i + 1)) ls

/-- Concrete template lines used to exhibit the escaping pass. -/
def demoLines : List String :=
  ["intro \x7bcommands\x7d", "<answer>", "\x7b\"type\": \x7buser_command\x7d\x7d",
   "</answer>", "outro \x7bobjects\x7d"]

/-! ## Theorems -/

/-- C10: if the transcription argument is empty or consists only of
whitespace, `recognize_command` returns `recognized = false`,
`command = None`, `confidence = 0.0` and `error = None` immediately, issuing
no backend inference request and leaving the error field unset. -/
theorem claim_C10_blank_input (svc : Service) (jsonParse : String → Option Json)
    (oracle : String → BackendResp) (t : String) (gs : GameState)
    (h : t = "" ∨ pyStrip t = "") :
    recognizeCommandLog svc jsonParse oracle t gs =
      ({ recognized := false, command := none, confidence := 0, error := none }, []) := by
  unfold recognizeCommandLog
  rw [if_pos h]
  rfl

theorem claim_C10_blank_input_witness :
    recognizeCommandLog {} (fun _ => none) (fun _ => BackendResp.exc) "   " {} =
      ({ recognized := false, command := none, confidence := 0, error := none }, []) :=
  claim_C10_blank_input {} (fun _ => none) (fun _ => BackendResp.exc) "   " {}
    (Or.inr (by decide))

/-- C9: every result of `recognize_command` satisfies the invariant that an
unrecognized result carries `command = None` and `confidence = 0.0`, and a
recognized result carries a positive confidence and a non-null command; hence
the HTTP handler's near-miss branch (`app/api/router.py` lines 138-142) is
unreachable. -/
theorem claim_C9_result_invariant (svc : Service) (jsonParse : String → Option Json)
    (oracle : String → BackendResp) (t : String) (gs : GameState) :
    ((recognizeCommandLog svc jsonParse oracle t gs).1.recognized = false →
      (recognizeCommandLog svc jsonParse oracle t gs).1.command = none ∧
      (recognizeCommandLog svc jsonParse oracle t gs).1.confidence = 0) ∧
    ((recognizeCommandLog svc jsonParse oracle t gs).1.recognized = true →
      0 < (recognizeCommandLog svc jsonParse oracle t gs).1.confidence ∧
      (recognizeCommandLog svc jsonParse oracle t gs).1.command ≠ none) ∧
    nearMissBranch (recognizeCommandLog svc jsonParse oracle t gs).1 = false := by
  unfold recognizeCommandLog
  by_cases hb : t = "" ∨ pyStrip t = ""
  · rw [if_pos hb]
    refine ⟨fun _ => ⟨rfl, rfl⟩, fun h => by simp [initResponse] at h, ?_⟩
    simp [nearMissBranch, initResponse]
  · rw [if_neg hb]
    rcases hfold : promptTypes.foldl (recognizeStep svc jsonParse oracle t gs) (none, 0, [])
      with ⟨best, conf, lg⟩
    by_cases hc : ((best.map jsonTruthy).getD false && decide ((0 : ℚ) < conf)) = true
    · simp only [hfold, hc, if_true]
      rcases best with _ | j
      · simp at hc
      · simp only [Bool.and_eq_true, decide_eq_true_eq] at hc
        refine ⟨fun h => by simp at h, fun _ => ⟨hc.2, by simp⟩, ?_⟩
        simp [nearMissBranch]
    · simp only [hfold]
      rw [if_neg hc]
      refine ⟨fun _ => ⟨rfl, rfl⟩, fun h => by simp at h, ?_⟩
      simp [nearMissBranch]

theorem claim_C9_result_invariant_witness :
    (recognizeCommandLog {} (fun _ => none) (fun _ => BackendResp.exc) "go" {}).1.command = none ∧
    nearMissBranch (recognizeCommandLog {} (fun _ => none) (fun _ => BackendResp.exc) "go" {}).1 = false :=
  ⟨((claim_C9_result_invariant {} (fun _ => none) (fun _ => BackendResp.exc) "go" {}).1 rfl).1,
   (claim_C9_result_invariant {} (fun _ => none) (fun _ => BackendResp.exc) "go" {}).2.2⟩

/-- When no backend call yields a decodable candidate, the recognition fold
keeps the empty best match and zero confidence. -/
theorem recognizeFold_none (svc : Service) (jsonParse : String → Option Json)
    (oracle : String → BackendResp) (t : String) (gs : GameState)
    (hfail : ∀ p, parsedAnswer jsonParse (oracle p) = none) :
    ∀ (types : List String) (log : List String),
      (types.foldl (recognizeStep svc jsonParse oracle t gs) (none, 0, log)).1 = none ∧
      (types.foldl (recognizeStep svc jsonParse oracle t gs) (none, 0, log)).2.1 = 0 := by
  intro types
  induction types with
  | nil => intro log; exact ⟨rfl, rfl⟩
  | cons ty tys ih =>
    intro log
    simp only [List.foldl_cons]
    have hstep : recognizeStep svc jsonParse oracle t gs (none, 0, log) ty =
        (none, 0, (recognizeStep svc jsonParse oracle t gs (none, 0, log) ty).2.2) := by
      unfold recognizeStep
      cases hp : preparePromptS svc ty t gs with
      | none => rfl
      | some prompt => simp [hfail]
    rw [hstep]
    exact ih _

/-- C5: `recognize_command` always produces a result value (the model is a
total function); in particular, when every backend call fails to yield a
decodable candidate — transport exception, non-200 status, missing answer
block, or unparsable JSON — it returns `recognized = false` with the
descriptive error message, rather than crashing. -/
theorem claim_C5_total_backend_failure (svc : Service) (jsonParse : String → Option Json)
    (oracle : String → BackendResp) (t : String) (gs : GameState)
    (hne : ¬(t = "" ∨ pyStrip t = ""))
    (hfail : ∀ p, parsedAnswer jsonParse (oracle p) = none) :
    (recognizeCommandLog svc jsonParse oracle t gs).1 =
      { recognized := false, command := none, confidence := 0,
        error := some "No valid command recognized" } := by
  unfold recognizeCommandLog
  rw [if_neg hne]
  have h := recognizeFold_none svc jsonParse oracle t gs hfail promptTypes []
  rcases hfold : promptTypes.foldl (recognizeStep svc jsonParse oracle t gs) (none, 0, [])
    with ⟨best, conf, lg⟩
  rw [hfold] at h
  obtain ⟨h1, h2⟩ := h
  simp only at h1 h2
  subst h1
  simp

theorem claim_C5_total_backend_failure_witness :
    (recognizeCommandLog {} (fun _ => none) (fun _ => BackendResp.exc) "attack" {}).1 =
      { recognized := false, command := none, confidence := 0,
        error := some "No valid command recognized" } :=
  claim_C5_total_backend_failure {} (fun _ => none) (fun _ => BackendResp.exc) "attack" {}
    (by decide) (fun _ => rfl)

/-- Case analysis of the `", ".join(l) or default` idiom. -/
theorem vocabOr_spec (l : List String) (d : String) (hd : d ≠ "") :
    (l = [] → vocabOr l d = d) ∧
    (joinComma l ≠ "" → vocabOr l d = joinComma l) ∧
    vocabOr l d ≠ "" := by
  refine ⟨fun h => ?_, fun h => ?_, ?_⟩
  · subst h; rfl
  · unfold vocabOr; simp only [if_neg h]
  · unfold vocabOr
    by_cases hj : joinComma l = ""
    · simp only [hj, if_pos rfl]; exact hd
    · simp only [if_neg hj]; exact hj

/-- C8 (amended): each of the seven vocabulary placeholders is bound to the
hard-coded default example list when the comma-join of the caller's list is
empty — in particular for the empty list — and to the comma-join otherwise;
no vocabulary value is ever the empty string. (The unamended claim, keyed on
the list being non-empty rather than its join, fails: see the
counterexample.) -/
theorem claim_C8_vocab_defaults_amended (t : String) (gs : GameState) :
    ((gs.commands = [] → formatVals t gs "commands" = some "move, interact, attack, talk") ∧
     (joinComma gs.commands ≠ "" → formatVals t gs "commands" = some (joinComma gs.commands)) ∧
     formatVals t gs "commands" ≠ some "") ∧
    ((gs.objects = [] → formatVals t gs "objects" = some "door, key, book, chest") ∧
     (joinComma gs.objects ≠ "" → formatVals t gs "objects" = some (joinComma gs.objects)) ∧
     formatVals t gs "objects" ≠ some "") ∧
    ((gs.interactions = [] → formatVals t gs "interactions" = some "open, close, take, use, examine") ∧
     (joinComma gs.interactions ≠ "" → formatVals t gs "interactions" = some (joinComma gs.interactions)) ∧
     formatVals t gs "interactions" ≠ some "") ∧
    ((gs.weapons = [] → formatVals t gs "weapons" = some "sword, bow, axe") ∧
     (joinComma gs.weapons ≠ "" → formatVals t gs "weapons" = some (joinComma gs.weapons)) ∧
     formatVals t gs "weapons" ≠ some "") ∧
    ((gs.targets = [] → formatVals t gs "targets" = some "enemy, monster, target") ∧
     (joinComma gs.targets ≠ "" → formatVals t gs "targets" = some (joinComma gs.targets)) ∧
     formatVals t gs "targets" ≠ some "") ∧
    ((gs.npcs = [] → formatVals t gs "npcs" = some "merchant, guard, villager") ∧
     (joinComma gs.npcs ≠ "" → formatVals t gs "npcs" = some (joinComma gs.npcs)) ∧
     formatVals t gs "npcs" ≠ some "") ∧
    ((gs.dialog_options = [] → formatVals t gs "dialog_options" = some "greet, ask, buy, sell") ∧
     (joinComma gs.dialog_options ≠ "" → formatVals t gs "dialog_options" = some (joinComma gs.dialog_options)) ∧
     formatVals t gs "dialog_options" ≠ some "") := by
  have key : ∀ (l : List String) (d : String), d ≠ "" →
      (l = [] → some (vocabOr l d) = some d) ∧
      (joinComma l ≠ "" → some (vocabOr l d) = some (joinComma l)) ∧
      some (vocabOr l d) ≠ some "" := by
    intro l d hd
    obtain ⟨h1, h2, h3⟩ := vocabOr_spec l d hd
    exact ⟨fun h => by rw [h1 h], fun h => by rw [h2 h], fun h => h3 (Option.some_injective _ h)⟩
  exact ⟨key gs.commands _ (by decide), key gs.objects _ (by decide),
    key gs.interactions _ (by decide), key gs.weapons _ (by decide),
    key gs.targets _ (by decide), key gs.npcs _ (by decide),
    key gs.dialog_options _ (by decide)⟩

theorem claim_C8_vocab_defaults_amended_witness :
    formatVals "x" { commands := [] } "commands" = some "move, interact, attack, talk" :=
  ((claim_C8_vocab_defaults_amended "x" { commands := [] }).1).1 rfl

/-- C8 counterexample: a non-empty caller-supplied list (a single empty
string) whose comma-join is empty is rendered as the hard-coded default, not
as the comma-joined caller strings, refuting the claim as stated. -/
theorem claim_C8_counterexample :
    ([""] ≠ ([] : List String)) ∧
    joinComma [""] = "" ∧
    compileTemplate "cmds: \x7bcommands\x7d" "x" { commands := [""] } =
      "cmds: move, interact, attack, talk" ∧
    compileTemplate "cmds: \x7bcommands\x7d" "x" { commands := [""] } ≠
      "cmds: " ++ joinComma [""] := by
  exact ⟨by decide, rfl, rfl, by decide⟩

/-- C1 (spec-modelled): whenever the routing stage yields confidence `r`
passing the low-confidence gate and the extraction stage yields a handler
with confidence `h`, the final result has confidence `min r h` and is
recognized exactly when `min r h ≥ 0.5`. -/
theorem claim_C1_min_confidence (d : RouterDecision)
    (extract : String → Option ExtractedCommand) (e : ExtractedCommand)
    (hgate : ¬(d.confidence < 3/10)) (hext : extract d.category = some e) :
    (orchestrate (some d) extract).1.confidence = min d.confidence e.confidence ∧
    ((orchestrate (some d) extract).1.recognized = true ↔
      1/2 ≤ min d.confidence e.confidence) := by
  simp [orchestrate, if_neg hgate, hext]

theorem claim_C1_min_confidence_witness :
    (orchestrate (some { category := "combat", confidence := 4/5 })
        (fun _ => some { category := "combat", confidence := 2/5 })).1.confidence = 2/5 ∧
    (orchestrate (some { category := "combat", confidence := 4/5 })
        (fun _ => some { category := "combat", confidence := 2/5 })).1.recognized = false := by
  have h := claim_C1_min_confidence { category := "combat", confidence := 4/5 }
    (fun _ => some { category := "combat", confidence := 2/5 })
    { category := "combat", confidence := 2/5 } (by norm_num) rfl
  have hmin : min ((4 : ℚ)/5) (2/5) = 2/5 := by
    rw [min_eq_right]; norm_num
  refine ⟨h.1.trans hmin, ?_⟩
  rcases hrec : (orchestrate (some { category := "combat", confidence := 4/5 })
      (fun _ => some { category := "combat", confidence := 2/5 })).1.recognized with _ | _
  · rfl
  · exfalso
    have := h.2.mp hrec
    rw [hmin] at this
    norm_num at this

/-- C2 (spec-modelled): a router confidence strictly below 0.3 stops the
pipeline: the result is unrecognized, carries the raw router decision and the
router confidence, reports the low-confidence error, and the extraction stage
is never invoked (the result is independent of the extraction oracle). -/
theorem claim_C2_low_confidence_gate (d : RouterDecision)
    (extract : String → Option ExtractedCommand) (hlow : d.confidence < 3/10) :
    orchestrate (some d) extract =
      ({ recognized := false, command := some (CommandValue.routerRaw d),
         confidence := d.confidence,
         error := some "Low confidence in command type" }, false) := by
  simp only [orchestrate, if_pos hlow]

theorem claim_C2_low_confidence_gate_witness :
    orchestrate (some { category := "movement", confidence := 1/5 })
        (fun _ => some { category := "movement", confidence := 9/10 }) =
      ({ recognized := false,
         command := some (CommandValue.routerRaw { category := "movement", confidence := 1/5 }),
         confidence := 1/5,
         error := some "Low confidence in command type" }, false) :=
  claim_C2_low_confidence_gate { category := "movement", confidence := 1/5 }
    (fun _ => some { category := "movement", confidence := 9/10 }) (by norm_num)

/-- C3 (spec-modelled): a decoded router answer using a raw verb field
instead of the category field is rewritten in canonical shape: the verb is
mapped through the fixed table (move/go to movement, attack/fight to combat,
talk/speak to dialog, use/take/open to object_interaction, anything else to
the explicit unknown category), the confidence defaults to 0.7 when absent
and is kept otherwise, and the conversion is recorded. -/
theorem claim_C3_verb_normalization (a : RouterAnswer) (v : String)
    (hcat : a.category = none) (hcmd : a.command = some v) :
    (normalizeRouterAnswer a).converted = true ∧
    (normalizeRouterAnswer a).category = some (verbToCategory v) ∧
    (a.confidence = none → (normalizeRouterAnswer a).confidence = some (7/10)) ∧
    (∀ q, a.confidence = some q → (normalizeRouterAnswer a).confidence = some q) ∧
    verbToCategory "move" = "movement" ∧ verbToCategory "go" = "movement" ∧
    verbToCategory "attack" = "combat" ∧ verbToCategory "fight" = "combat" ∧
    verbToCategory "talk" = "dialog" ∧ verbToCategory "speak" = "dialog" ∧
    verbToCategory "use" = "object_interaction" ∧
    verbToCategory "take" = "object_interaction" ∧
    verbToCategory "open" = "object_interaction" ∧
    (∀ w, w ∉ verbTable.map Prod.fst → verbToCategory w = "unknown") := by
  rcases a with ⟨cat, cmd, confid, cv⟩
  simp only at hcat hcmd
  subst hcat; subst hcmd
  refine ⟨rfl, rfl, fun h => ?_, fun q h => ?_, rfl, rfl, rfl, rfl, rfl, rfl, rfl, rfl, rfl, ?_⟩
  · simp only at h; subst h; rfl
  · simp only at h; subst h; rfl
  · intro w hw
    simp only [verbTable, List.map, List.mem_cons, List.not_mem_nil, or_false,
      not_or] at hw
    obtain ⟨w1, w2, w3, w4, w5, w6, w7, w8, w9⟩ := hw
    simp [verbToCategory, verbTable, List.lookup,
      beq_eq_false_iff_ne.mpr w1, beq_eq_false_iff_ne.mpr w2, beq_eq_false_iff_ne.mpr w3,
      beq_eq_false_iff_ne.mpr w4, beq_eq_false_iff_ne.mpr w5, beq_eq_false_iff_ne.mpr w6,
      beq_eq_false_iff_ne.mpr w7, beq_eq_false_iff_ne.mpr w8, beq_eq_false_iff_ne.mpr w9]

theorem claim_C3_verb_normalization_witness :
    (normalizeRouterAnswer { category := none, command := some "attack", confidence := none }).category =
      some "combat" ∧
    (normalizeRouterAnswer { category := none, command := some "attack", confidence := none }).confidence =
      some (7/10) := by
  have h := claim_C3_verb_normalization
    { category := none, command := some "attack", confidence := none } "attack" rfl rfl
  exact ⟨h.2.1.trans (by rw [h.2.2.2.2.2.2.1]), h.2.2.1 rfl⟩

/-- Loading a file with a different name does not change what the active set
associates with `name`. -/
theorem loadStep_lookup_ne (svc : Service) (f : String × FileEntry) (name : String)
    (h : f.1 ≠ name) :
    (loadStep svc f).prompts.lookup name = svc.prompts.lookup name := by
  rcases f with ⟨fn, fe⟩
  simp only at h
  cases fe with
  | bad => rfl
  | good t =>
    have hne : (name == fn) = false := beq_eq_false_iff_ne.mpr (Ne.symm h)
    simp only [loadStep]
    cases hc : containsS t "\x7buser_command\x7d" with
    | false => simp [hc]
    | true =>
      cases hp : pyFormatS testVals t with
      | ok s => simp [hc, hp, List.lookup, hne]
      | error e => cases e with
        | keyErr en => simp [hc, hp, List.lookup, hne]
        | otherErr => simp [hc, hp]

/-- Folding the loader over files that never mention `name` does not change
what the active set associates with `name`. -/
theorem loadPrompts_frame (fs : List (String × FileEntry)) (svc : Service) (name : String)
    (h : name ∉ fs.map Prod.fst) :
    ((fs.foldl loadStep svc).prompts.lookup name) = svc.prompts.lookup name := by
  induction fs generalizing svc with
  | nil => rfl
  | cons f fs ih =>
    simp only [List.map_cons, List.mem_cons, not_or] at h
    rw [List.foldl_cons, ih _ h.2, loadStep_lookup_ne]
    exact fun he => h.1 he.symm

/-- What the active set associates with a prompt name after loading, in terms
of that file's own content (names assumed pairwise distinct, as directory
listings are). -/
theorem loadPrompts_lookup_mem (files : List (String × FileEntry)) (svc : Service)
    (name t : String) (hnd : (files.map Prod.fst).Nodup)
    (hmem : (name, FileEntry.good t) ∈ files) :
    ((files.foldl loadStep svc).prompts.lookup name) =
      (if containsS t "\x7buser_command\x7d" then
        match pyFormatS testVals t with
        | .ok _ => some t
        | .error (.keyErr e) => some (removeMatching e t)
        | .error .otherErr => svc.prompts.lookup name
      else svc.prompts.lookup name) := by
  induction files generalizing svc with
  | nil => simp at hmem
  | cons f fs ih =>
    simp only [List.map_cons, List.nodup_cons] at hnd
    rcases List.mem_cons.mp hmem with heq | hmemtl
    · subst heq
      rw [List.foldl_cons, loadPrompts_frame fs _ name hnd.1]
      simp only [loadStep]
      cases hc : containsS t "\x7buser_command\x7d" with
      | false => simp [hc]
      | true =>
        cases hp : pyFormatS testVals t with
        | ok s => simp [hc, hp, List.lookup]
        | error e => cases e with
          | keyErr en => simp [hc, hp, List.lookup]
          | otherErr => simp [hc, hp]
    · have hname : name ∈ fs.map Prod.fst :=
        List.mem_map.mpr ⟨(name, FileEntry.good t), hmemtl, rfl⟩
      have hne : f.1 ≠ name := fun he => hnd.1 (he ▸ hname)
      rw [List.foldl_cons, ih _ hnd.2 hmemtl, loadStep_lookup_ne svc f name hne]

/-- C6: a template file whose body lacks the `\x7buser_command\x7d` placeholder is
excluded from the active prompt set while the other files still load; a file
that fails to read or parse is skipped without affecting the rest of the
load. -/
theorem claim_C6_load_resilience (files : List (String × FileEntry))
    (hnd : (files.map Prod.fst).Nodup) :
    (∀ name t, (name, FileEntry.good t) ∈ files →
      containsS t "\x7buser_command\x7d" = false →
      (loadPrompts files).prompts.lookup name = none) ∧
    (∀ name t, (name, FileEntry.good t) ∈ files →
      containsS t "\x7buser_command\x7d" = true →
      (∃ s, pyFormatS testVals t = .ok s) →
      (loadPrompts files).prompts.lookup name = some t) ∧
    (∀ pre post n, loadPrompts (pre ++ (n, FileEntry.bad) :: post) = loadPrompts (pre ++ post)) := by
  refine ⟨fun name t hmem hc => ?_, fun name t hmem hc hdry => ?_, fun pre post n => ?_⟩
  · rw [loadPrompts, loadPrompts_lookup_mem files {} name t hnd hmem, hc]
    rfl
  · obtain ⟨s, hs⟩ := hdry
    rw [loadPrompts, loadPrompts_lookup_mem files {} name t hnd hmem, hc, hs]
    rfl
  · simp only [loadPrompts, List.foldl_append, List.foldl_cons]
    rfl

theorem claim_C6_load_resilience_witness :
    (loadPrompts [("alpha", FileEntry.good "no placeholder"), ("beta", FileEntry.bad),
        ("gamma", FileEntry.good "ok \x7buser_command\x7d")]).prompts.lookup "alpha" = none ∧
    (loadPrompts [("alpha", FileEntry.good "no placeholder"), ("beta", FileEntry.bad),
        ("gamma", FileEntry.good "ok \x7buser_command\x7d")]).prompts.lookup "gamma" =
      some "ok \x7buser_command\x7d" ∧
    loadPrompts [("alpha", FileEntry.good "no placeholder"), ("beta", FileEntry.bad),
        ("gamma", FileEntry.good "ok \x7buser_command\x7d")] =
      loadPrompts [("alpha", FileEntry.good "no placeholder"),
        ("gamma", FileEntry.good "ok \x7buser_command\x7d")] := by
  have h := claim_C6_load_resilience
    [("alpha", FileEntry.good "no placeholder"), ("beta", FileEntry.bad),
     ("gamma", FileEntry.good "ok \x7buser_command\x7d")] (by decide)
  refine ⟨h.1 "alpha" "no placeholder" (by simp) (by decide),
    h.2.1 "gamma" "ok \x7buser_command\x7d" (by simp) (by decide) ⟨"ok test", rfl⟩,
    h.2.2 [("alpha", FileEntry.good "no placeholder")]
      [("gamma", FileEntry.good "ok \x7buser_command\x7d")] "beta"⟩

/-- Containment in the placeholder list gives membership. -/
theorem contains_mem_keys8 {k : String} (hk : keys8.contains k = true) : k ∈ keys8 := by
  simpa using hk

/-- A field whose characters are all ordinary (no stop characters, not all
digits) resolves to the bound value. -/
theorem resolveField_clean (vals : String → Option String) (acc : List Char) (v : String)
    (h1 : acc.all (fun c => !(fieldStop c)) = true)
    (h2 : acc.all Char.isDigit = false)
    (hv : vals (String.mk acc) = some v) :
    resolveField vals acc = .ok v.data := by
  have hbase : acc.takeWhile (fun c => !(fieldStop c)) = acc := by
    rw [List.takeWhile_eq_self_iff]
    exact fun a ha => (List.all_eq_true.mp h1) a ha
  simp only [resolveField, hbase]
  rw [if_neg (by simp [h2]), hv]
  simp

/-- Every placeholder name resolves to its bound value. -/
theorem resolveField_key (vals : String → Option String) (k v : String)
    (hk : keys8.contains k = true) (hv : vals k = some v) :
    resolveField vals k.data = .ok v.data := by
  have hk' : k ∈ keys8 := contains_mem_keys8 hk
  fin_cases hk' <;> exact resolveField_clean vals _ v (by decide) (by decide) hv

/-- Placeholder names are non-empty and brace-free. -/
theorem keys8_data_facts (k : String) (hk : keys8.contains k = true) :
    k.data ≠ [] ∧ ∀ c ∈ k.data, c ≠ obr ∧ c ≠ cbr := by
  have hk' : k ∈ keys8 := contains_mem_keys8 hk
  fin_cases hk' <;> exact ⟨by decide, by decide⟩

/-- The two brace characters differ. -/
theorem obr_ne_cbr : obr ≠ cbr := by decide

/-- The two brace characters differ. -/
theorem cbr_ne_obr : cbr ≠ obr := by decide

/-- Scanner step: ordinary character in normal state. -/
theorem fmtRun_norm_ch (vals : String → Option String) (c : Char) (l : List Char)
    (h1 : c ≠ obr) (h2 : c ≠ cbr) :
    fmtRun vals (c :: l) .norm = (fun out => c :: out) <$> fmtRun vals l .norm := by
  simp [fmtRun, h1, h2]

/-- Scanner step: opening brace in normal state. -/
theorem fmtRun_norm_open (vals : String → Option String) (l : List Char) :
    fmtRun vals (obr :: l) .norm = fmtRun vals l .afterOpen := by
  simp [fmtRun]

/-- Scanner step: closing brace in normal state. -/
theorem fmtRun_norm_close (vals : String → Option String) (l : List Char) :
    fmtRun vals (cbr :: l) .norm = fmtRun vals l .afterClose := by
  simp [fmtRun, cbr_ne_obr]

/-- Scanner step: doubled opening brace is an escape. -/
theorem fmtRun_afterOpen_open (vals : String → Option String) (l : List Char) :
    fmtRun vals (obr :: l) .afterOpen = (fun out => obr :: out) <$> fmtRun vals l .norm := by
  simp [fmtRun]

/-- Scanner step: ordinary character after an opening brace starts a field. -/
theorem fmtRun_afterOpen_ch (vals : String → Option String) (c : Char) (l : List Char)
    (h1 : c ≠ obr) (h2 : c ≠ cbr) :
    fmtRun vals (c :: l) .afterOpen = fmtRun vals l (.inField [c]) := by
  simp [fmtRun, h1, h2]

/-- Scanner step: doubled closing brace is an escape. -/
theorem fmtRun_afterClose_close (vals : String → Option String) (l : List Char) :
    fmtRun vals (cbr :: l) .afterClose = (fun out => cbr :: out) <$> fmtRun vals l .norm := by
  simp [fmtRun]

/-- Scanner step: closing brace ends a field and resolves it. -/
theorem fmtRun_inField_close (vals : String → Option String) (acc l : List Char) :
    fmtRun vals (cbr :: l) (.inField acc) =
      (match resolveField vals acc with
       | .ok v => (fun out => v ++ out) <$> fmtRun vals l .norm
       | .error e => .error e) := by
  simp [fmtRun]

/-- Scanner step: ordinary character extends the current field name. -/
theorem fmtRun_inField_ch (vals : String → Option String) (c : Char) (acc l : List Char)
    (h1 : c ≠ obr) (h2 : c ≠ cbr) :
    fmtRun vals (c :: l) (.inField acc) = fmtRun vals l (.inField (acc ++ [c])) := by
  simp [fmtRun, h1, h2]

/-- Scanning a brace-free field name accumulates it and resolves at the
closing brace. -/
theorem fmtRun_field (vals : String → Option String) :
    ∀ (nm acc rest : List Char), (∀ c ∈ nm, c ≠ obr ∧ c ≠ cbr) →
    fmtRun vals (nm ++ cbr :: rest) (.inField acc) =
      (match resolveField vals (acc ++ nm) with
       | .ok v => (fun out => v ++ out) <$> fmtRun vals rest .norm
       | .error e => .error e) := by
  intro nm
  induction nm with
  | nil =>
    intro acc rest _
    rw [List.nil_append, List.append_nil, fmtRun_inField_close]
  | cons c cs ih =>
    intro acc rest hchars
    have hc := hchars c (List.mem_cons_self _ _)
    have hcs : ∀ x ∈ cs, x ≠ obr ∧ x ≠ cbr :=
      fun x hx => hchars x (List.mem_cons_of_mem _ hx)
    rw [List.cons_append, fmtRun_inField_ch vals c acc _ hc.1 hc.2,
      ih (acc ++ [c]) rest hcs, List.append_assoc]
    rfl

/-- Formatting the rendering of a well-formed token list consumes exactly the
tokens' output and continues with the remainder. -/
theorem fmtRun_render (vals : String → Option String)
    (hvals : ∀ k, keys8.contains k = true → (vals k).isSome = true) :
    ∀ (ts : List Tok) (rest : List Char), (∀ tk ∈ ts, tk.wfB = true) →
    fmtRun vals (renderToks ts ++ rest) .norm =
      (fun out => outToks vals ts ++ out) <$> fmtRun vals rest .norm := by
  intro ts
  induction ts with
  | nil =>
    intro rest _
    cases h : fmtRun vals rest .norm <;> simp [renderToks, outToks, h, Except.map]
  | cons tk ts ih =>
    intro rest hwf
    have hwtk := hwf tk (List.mem_cons_self _ _)
    have hwts : ∀ t ∈ ts, t.wfB = true := fun t ht => hwf t (List.mem_cons_of_mem _ ht)
    cases tk with
    | ch c =>
      simp only [Tok.wfB, Bool.not_eq_true', Bool.or_eq_false_iff, decide_eq_false_iff_not]
        at hwtk
      have hshape : renderToks (Tok.ch c :: ts) ++ rest = c :: (renderToks ts ++ rest) := by
        simp [renderToks, Tok.renderOne]
      rw [hshape, fmtRun_norm_ch vals c _ hwtk.1 hwtk.2, ih rest hwts]
      cases fmtRun vals rest .norm <;> simp [Except.map, outToks]
    | escOpen =>
      have hshape : renderToks (Tok.escOpen :: ts) ++ rest =
          obr :: obr :: (renderToks ts ++ rest) := by
        simp [renderToks, Tok.renderOne]
      rw [hshape, fmtRun_norm_open, fmtRun_afterOpen_open, ih rest hwts]
      cases fmtRun vals rest .norm <;> simp [Except.map, outToks]
    | escClose =>
      have hshape : renderToks (Tok.escClose :: ts) ++ rest =
          cbr :: cbr :: (renderToks ts ++ rest) := by
        simp [renderToks, Tok.renderOne]
      rw [hshape, fmtRun_norm_close, fmtRun_afterClose_close, ih rest hwts]
      cases fmtRun vals rest .norm <;> simp [Except.map, outToks]
    | field n =>
      simp only [Tok.wfB] at hwtk
      obtain ⟨hne, hchars⟩ := keys8_data_facts n hwtk
      obtain ⟨v, hv⟩ := Option.isSome_iff_exists.mp (hvals n hwtk)
      rcases hd : n.data with _ | ⟨c, cs⟩
      · exact absurd hd hne
      have hc := hchars c (by rw [hd]; exact List.mem_cons_self _ _)
      have hcs : ∀ x ∈ cs, x ≠ obr ∧ x ≠ cbr :=
        fun x hx => hchars x (by rw [hd]; exact List.mem_cons_of_mem _ hx)
      have hshape : renderToks (Tok.field n :: ts) ++ rest =
          obr :: (c :: (cs ++ cbr :: (renderToks ts ++ rest))) := by
        simp [renderToks, Tok.renderOne, hd, List.append_assoc]
      rw [hshape, fmtRun_norm_open, fmtRun_afterOpen_ch vals c _ hc.1 hc.2,
        fmtRun_field vals cs [c] (renderToks ts ++ rest) hcs]
      have hres : resolveField vals ([c] ++ cs) = .ok v.data := by
        have hdd : ([c] ++ cs : List Char) = n.data := by rw [hd]; rfl
        rw [hdd]
        exact resolveField_key vals n v hwtk hv
      rw [hres, ih rest hwts]
      cases fmtRun vals rest .norm <;> simp [Except.map, outToks, hv, List.append_assoc]

/-- Formatting the rendering of a well-formed token list succeeds with the
tokens' output. -/
theorem pyFormatS_render (vals : String → Option String)
    (hvals : ∀ k, keys8.contains k = true → (vals k).isSome = true)
    (ts : List Tok) (hwf : ∀ tk ∈ ts, tk.wfB = true) :
    pyFormatS vals (String.mk (renderToks ts)) = .ok (String.mk (outToks vals ts)) := by
  have h := fmtRun_render vals hvals ts [] hwf
  rw [List.append_nil] at h
  unfold pyFormatS
  show (fmtRun vals (renderToks ts) .norm).map String.mk = _
  rw [h]
  simp [fmtRun, Except.map]

/-- The value of a field occurring in a token list is an infix of the
formatted output. -/
theorem outToks_field_infix (vals : String → Option String) (n : String) :
    ∀ ts : List Tok, Tok.field n ∈ ts → ((vals n).getD "").data <:+: outToks vals ts := by
  intro ts
  induction ts with
  | nil => simp
  | cons tk ts ih =>
    intro h
    have hcons : ∃ x, outToks vals (tk :: ts) = x ++ outToks vals ts := by
      cases tk with
      | ch c => exact ⟨[c], rfl⟩
      | escOpen => exact ⟨[obr], rfl⟩
      | escClose => exact ⟨[cbr], rfl⟩
      | field m => exact ⟨((vals m).getD "").data, rfl⟩
    rcases List.mem_cons.mp h with heq | hm
    · rw [← heq]
      exact ⟨[], outToks vals ts, by simp [outToks]⟩
    · obtain ⟨s, u, hsu⟩ := ih hm
      obtain ⟨x, hx⟩ := hcons
      exact ⟨x ++ s, u, by rw [hx, ← hsu]; simp [List.append_assoc]⟩

/-- The real format call binds every placeholder. -/
theorem formatVals_defined (t : String) (gs : GameState) :
    ∀ k, keys8.contains k = true → (formatVals t gs k).isSome = true := by
  intro k hk
  have hk' : k ∈ keys8 := contains_mem_keys8 hk
  fin_cases hk' <;> rfl

/-- C4 counterexample: the load-time placeholder-repair path can admit into
the active set a template stripped of its utterance placeholder — here the
empty template, obtained from a file whose body is
`\x7buser\x7d\x7buser_command\x7d` — and compiling that stored template
yields the empty string, which neither is non-empty nor contains the
utterance, refuting the claim as stated. -/
theorem claim_C4_counterexample :
    (loadPrompts [("p", FileEntry.good "\x7buser\x7d\x7buser_command\x7d")]).prompts.lookup "p" =
      some "" ∧
    compileTemplate "" "go forward" {} = "" ∧
    containsS (compileTemplate "" "go forward" {}) "go forward" = false ∧
    ("go forward" : String) ≠ "" :=
  ⟨rfl, rfl, by decide, by decide⟩

/-- C4 (amended): `_prepare_prompt` never raises: whenever named substitution
fails it returns the minimal fallback prompt, which is non-empty and embeds
the utterance verbatim; and for every stored template whose escaped form is a
well-formed placeholder template containing the `\x7buser_command\x7d` field,
the compiled prompt is the complete substitution instance (every placeholder
resolved), embeds the utterance verbatim, and is non-empty whenever the
utterance is. The unamended claim — over every template admitted to the
active set — fails on templates admitted through the placeholder-repair
path. -/
theorem claim_C4_compile_amended (t tr : String) (gs : GameState) :
    ((∃ e, pyFormatS (formatVals tr gs) (processAnswerEscape t) = .error e) →
      compileTemplate t tr gs = fallbackPrompt tr ∧
      tr.data <:+: (fallbackPrompt tr).data ∧ fallbackPrompt tr ≠ "") ∧
    (∀ ts : List Tok, processAnswerEscape t = String.mk (renderToks ts) →
      (∀ tk ∈ ts, tk.wfB = true) → Tok.field "user_command" ∈ ts →
      compileTemplate t tr gs = String.mk (outToks (formatVals tr gs) ts) ∧
      tr.data <:+: (compileTemplate t tr gs).data ∧
      (tr ≠ "" → compileTemplate t tr gs ≠ "")) := by
  constructor
  · rintro ⟨e, he⟩
    refine ⟨by unfold compileTemplate; rw [he], ?_, ?_⟩
    · exact ⟨"Analyze this command: \"".data, "\". Respond with JSON in <answer> tags.".data,
        by simp [fallbackPrompt, String.data_append]⟩
    · intro h
      have hdata := congrArg String.data h
      simp [fallbackPrompt, String.data_append] at hdata
  · intro ts hren hwf hmem
    have hfmt : pyFormatS (formatVals tr gs) (processAnswerEscape t) =
        .ok (String.mk (outToks (formatVals tr gs) ts)) := by
      rw [hren]
      exact pyFormatS_render _ (formatVals_defined tr gs) ts hwf
    have hcomp : compileTemplate t tr gs = String.mk (outToks (formatVals tr gs) ts) := by
      unfold compileTemplate
      rw [hfmt]
    have hinf : tr.data <:+: outToks (formatVals tr gs) ts := by
      have h0 := outToks_field_infix (formatVals tr gs) "user_command" ts hmem
      have hval : formatVals tr gs "user_command" = some tr := rfl
      rw [hval] at h0
      simpa using h0
    refine ⟨hcomp, by rw [hcomp]; exact hinf, ?_⟩
    intro htr hemp
    obtain ⟨s, u, hsu⟩ := hinf
    have hd : outToks (formatVals tr gs) ts = [] := by
      have := congrArg String.data hemp
      rw [hcomp] at this
      exact this
    rw [hd] at hsu
    simp only [List.append_eq_nil] at hsu
    exact htr (by
      have : tr.data = [] := hsu.1.2
      cases tr
      simp at this
      rw [this])

theorem claim_C4_compile_amended_witness :
    compileTemplate "hi \x7buser_command\x7d" "go" {} = "hi go" := by
  have h := (claim_C4_compile_amended "hi \x7buser_command\x7d" "go" {}).2
    [Tok.ch 'h', Tok.ch 'i', Tok.ch ' ', Tok.field "user_command"]
    (by decide) (by decide) (by decide)
  exact h.1.trans (by decide)

/-- Positional maps agree when the functions agree on the list. -/
theorem idxMap_congr : ∀ (ls : List String) (f g : Nat → String → String),
    (∀ i x, x ∈ ls → f i x = g i x) → idxMap f ls = idxMap g ls := by
  intro ls
  induction ls with
  | nil => intro f g _; rfl
  | cons l ls ih =>
    intro f g h
    simp only [idxMap]
    rw [h 0 l (List.mem_cons_self _ _),
      ih _ _ (fun i x hx => h (i + 1) x (List.mem_cons_of_mem _ hx))]

/-- One step of the escaping loop: the head is escaped exactly when the scan
state is inside a span and the head carries a brace but no tag, and the state
for the tail is updated by the head's tags. -/
theorem processPromptLines_cons (b : Bool) (l : String) (ls : List String) :
    processPromptLines b (l :: ls) =
      (if b && !taggedLine l && hasBrace l then escapeLine l else l) ::
      processPromptLines (if hasOpenTag l then true else if hasCloseTag l then false else b) ls := by
  rcases Bool.eq_false_or_eq_true (hasOpenTag l) with hO | hO <;>
    rcases Bool.eq_false_or_eq_true (hasCloseTag l) with hC | hC <;>
    cases b <;>
    rcases Bool.eq_false_or_eq_true (hasBrace l) with hbr | hbr <;>
    simp [processPromptLines, taggedLine, hO, hC, hbr]

/-- Shifting the span-membership test across the head line. -/
theorem insideFrom_succ (b : Bool) (l : String) (ls : List String) (i : Nat)
    (_hl : ¬(hasOpenTag l = true ∧ hasCloseTag l = true)) :
    insideFrom b (l :: ls) (i + 1) =
      insideFrom (if hasOpenTag l then true else if hasCloseTag l then false else b) ls i := by
  unfold insideFrom lastTagBefore
  rw [List.take_succ_cons]
  cases hT : taggedLine l with
  | false =>
    have hoc : hasOpenTag l = false ∧ hasCloseTag l = false := by
      have h0 := hT
      rw [taggedLine] at h0
      exact ⟨by cases hx : hasOpenTag l <;> simp [hx] at h0 ⊢,
        by cases hx : hasCloseTag l <;> simp [hx] at h0 ⊢⟩
    rw [List.filter_cons_of_neg (by simp [hT]), hoc.1, hoc.2]
    simp
  | true =>
    rw [List.filter_cons_of_pos (by simp [hT])]
    cases hF : (ls.take i).filter taggedLine with
    | nil =>
      simp only [List.getLast?_singleton]
      cases hO : hasOpenTag l with
      | true => simp
      | false =>
        have hc : hasCloseTag l = true := by
          rw [taggedLine, hO] at hT
          simpa using hT
        simp [hO, hc]
    | cons f fs => simp [List.getLast?_cons]

/-- The escaping pass, characterized positionally: starting from scan state
`b`, each line is escaped exactly when it lies strictly inside a span (as
judged from the last tagged line before it), carries a brace and no tag. -/
theorem processPromptLines_charac (ls : List String) : ∀ b : Bool,
    (∀ l ∈ ls, ¬(hasOpenTag l = true ∧ hasCloseTag l = true)) →
    processPromptLines b ls = idxMap (fun i l =>
      if insideFrom b ls i && !taggedLine l && hasBrace l then escapeLine l else l) ls := by
  induction ls with
  | nil => intro b _; rfl
  | cons l ls ih =>
    intro b hd
    have hl := hd l (List.mem_cons_self _ _)
    have hls : ∀ x ∈ ls, ¬(hasOpenTag x = true ∧ hasCloseTag x = true) :=
      fun x hx => hd x (List.mem_cons_of_mem _ hx)
    rw [processPromptLines_cons, ih _ hls]
    simp only [idxMap]
    congr 1
    apply idxMap_congr
    intro i x _
    rw [insideFrom_succ b l ls i hl]

/-- C7: during prompt compilation every line lying strictly inside an
`<answer>`...`</answer>` span (the most recent tagged line before it is an
opening line) and containing a brace is escaped — braces doubled, then the
eight legitimate placeholder names selectively un-escaped, which is the
definition of `escapeLine` — while every other line, in particular every line
outside the spans, is left unmodified. Lines are assumed not to carry both
tags at once. -/
theorem claim_C7_answer_escaping (ls : List String)
    (hd : ∀ l ∈ ls, ¬(hasOpenTag l = true ∧ hasCloseTag l = true)) :
    processPromptLines false ls = idxMap (fun i l =>
      if strictlyInside ls i && !taggedLine l && hasBrace l then escapeLine l else l) ls := by
  rw [processPromptLines_charac ls false hd]
  simp only [strictlyInside]

theorem claim_C7_answer_escaping_witness :
    processPromptLines false demoLines = idxMap (fun i l =>
      if strictlyInside demoLines i && !taggedLine l && hasBrace l then escapeLine l else l)
      demoLines :=
  claim_C7_answer_escaping demoLines (by decide)

end CmdRec
